import Mathlib

/-!
Shallow embedding of the `react-logger` library (src/logger.ts,
src/withDebugProxy.ts, src/decorators.ts).

Console output is modelled as a list of `OutputLine` values: each line
records the console channel it was written to, the bracketed namespace
tag, and the remaining arguments.  The process-wide mutable enablement
rule `_isEnabled` is read at every emission; we model the currently
installed rule as an explicit state-passing predicate `σ → Bool × σ`
that every emission receives at call time, so that one invocation of the
rule is one application of its state transition (a counting state makes
"invoked exactly once" observable).  A method of a wrapped object is a
function from its argument list to a `CallOutcome`: a plain (non-thenable)
return value, a synchronous throw, or a thenable that resolves or rejects.
-/

namespace ReactLogger

/-- The four log levels of `LogLevel` in src/types.ts. -/
inductive LogLevel
  | debug
  | info
  | warn
  | error
  deriving DecidableEq, BEq, Repr

/-- The console channels the logger writes to (`console.log`,
`console.info`, `console.warn`, `console.error`). -/
inductive Channel
  | log
  | info
  | warn
  | error
  deriving DecidableEq, BEq, Repr

/-- Channel selection in `makeLogger`:
`console[lvl === "debug" ? "log" : lvl]`. -/
def chanFor : LogLevel → Channel
  | .debug => .log
  | .info => .info
  | .warn => .warn
  | .error => .error

/-- One line of console output: the channel written to, the bracketed
namespace tag passed as the first console argument, and the remaining
arguments. -/
structure OutputLine (A : Type) where
  channel : Channel
  tag : String
  values : List A
  deriving DecidableEq, Repr

/-- The type of an enablement rule (`EnableFn`), in state-passing form:
applying the rule to the current rule-state yields its boolean answer and
the successor state.  One application models one invocation. -/
def EnableRule (σ : Type) : Type := σ → Bool × σ

variable {A V : Type} {σ ω : Type}

/-- The body of `emit` in `makeLogger`:
`if (!_isEnabled() && lvl === "debug") return;`
`console[lvl === "debug" ? "log" : lvl]("[" + ns + "]", ...a);`
The rule `_isEnabled` is invoked first, exactly once, whatever the level;
only at level `debug` does its answer suppress the output. -/
def emit (ns : String) (lvl : LogLevel) (rule : EnableRule σ) (a : List A)
    (s : σ) : List (OutputLine A) × σ :=
  let r := rule s
  if !r.1 && lvl == .debug then ([], r.2)
  else ([⟨chanFor lvl, "[" ++ ns ++ "]", a⟩], r.2)

/-- The record returned by `makeLogger`: one emission per level.  Each
emission receives the currently installed enablement rule (the mutable
`_isEnabled` cell is read at call time). -/
structure Logger (A σ : Type) where
  debug : EnableRule σ → List A → σ → List (OutputLine A) × σ
  info : EnableRule σ → List A → σ → List (OutputLine A) × σ
  warn : EnableRule σ → List A → σ → List (OutputLine A) × σ
  error : EnableRule σ → List A → σ → List (OutputLine A) × σ

/-- `makeLogger(ns)` from src/logger.ts. -/
def makeLogger (ns : String) : Logger A σ :=
  ⟨emit ns .debug, emit ns .info, emit ns .warn, emit ns .error⟩

/-- `makeDevLogger(ns)` from src/logger.ts.  `dev` models the build-time
constant `__DEV__`: `none` for undefined, `some b` for a defined boolean.
`if (typeof __DEV__ !== "undefined" && !__DEV__)` return all no-ops,
else delegate to `makeLogger`. -/
def makeDevLogger (dev : Option Bool) (ns : String) : Logger A σ :=
  match dev with
  | some false =>
      ⟨fun _ _ s => ([], s), fun _ _ s => ([], s),
       fun _ _ s => ([], s), fun _ _ s => ([], s)⟩
  | _ => makeLogger ns

/-- The execution context read by `defaultEnabled`: whether `window` is
defined, the value of `process.env.NODE_ENV` (`none` = unset), and the
value of `window.localStorage?.getItem("debug")` (`none` = missing store
or key). -/
structure Env where
  browser : Bool
  nodeEnv : Option String
  lsDebug : Option String
  deriving DecidableEq, Repr

/-- `defaultEnabled` from src/logger.ts:
in Node, `process.env.NODE_ENV !== "production"`; in a browser,
`ls && ls !== "false" || process.env.NODE_ENV !== "production"` where
`ls` is the persisted `"debug"` value (a missing or empty string is
falsy). -/
def defaultEnabled (e : Env) : Bool :=
  if !e.browser then
    e.nodeEnv != some "production"
  else
    (match e.lsDebug with
     | some ls => ls != "" && ls != "false"
     | none => false) || e.nodeEnv != some "production"

/-- A console argument produced by the instrumentation: a string marker,
the logged copy of an argument array, or a single logged value. -/
inductive LogVal (V : Type)
  | str (s : String)
  | arr (vs : List V)
  | val (v : V)
  deriving DecidableEq, Repr

/-- The outcome of invoking an original method: a plain non-thenable
value, a synchronous throw, or a thenable that resolves or rejects. -/
inductive CallOutcome (V : Type)
  | value (v : V)
  | thrown (e : V)
  | resolved (v : V)
  | rejected (e : V)
  deriving DecidableEq, Repr

/-- `ProxyOpts` from src/types.ts.  The opt-out predicate is kept in
state-passing form over `ω` so that the number of times the wrapper
consults it is observable. -/
structure ProxyOpts (V ω : Type) where
  optOut : Option (String → ω → Bool × ω)
  redactArgs : Option (List V → String → List V)
  redactResult : Option (V → String → V)
  namespaceFor : Option (String → Option String)

/-- One invocation of the instrumented function that `withDebugProxy`'s
`get` trap returns for a function-valued property `m` of a target wrapped
under `name`.  Follows src/withDebugProxy.ts: resolve the namespace via
`namespaceFor` with fallback `name ++ "." ++ m`, log the (possibly
redacted) arguments at debug level, invoke the original with the original
arguments, then log the (possibly redacted) result at debug level on
success, or log the error through the base logger (namespace `name`) and
re-throw on failure.  Returns the caller-visible outcome, the console
lines emitted, and the rule-state after the emissions. -/
def wrappedCall (opts : ProxyOpts V ω) (name m : String)
    (method : List V → CallOutcome V) (rule : EnableRule σ)
    (args : List V) (s : σ) :
    CallOutcome V × List (OutputLine (LogVal V)) × σ :=
  let ns :=
    match opts.namespaceFor with
    | some f => (f m).getD (name ++ "." ++ m)
    | none => name ++ "." ++ m
  let a :=
    match opts.redactArgs with
    | some f => f args m
    | none => args
  let e1 := emit ns .debug rule [LogVal.str "▶ args:", LogVal.arr a] s
  match method args with
  | CallOutcome.value out =>
      let r :=
        match opts.redactResult with
        | some f => f out m
        | none => out
      let e2 := emit ns .debug rule [LogVal.str "✅ result:", LogVal.val r] e1.2
      (CallOutcome.value out, e1.1 ++ e2.1, e2.2)
  | CallOutcome.thrown err =>
      let e2 := emit name .error rule
        [LogVal.str ("❌ error in " ++ m ++ ":"), LogVal.val err] e1.2
      (CallOutcome.thrown err, e1.1 ++ e2.1, e2.2)
  | CallOutcome.resolved res =>
      let r :=
        match opts.redactResult with
        | some f => f res m
        | none => res
      let e2 := emit ns .debug rule [LogVal.str "✅ result:", LogVal.val r] e1.2
      (CallOutcome.resolved res, e1.1 ++ e2.1, e2.2)
  | CallOutcome.rejected err =>
      let e2 := emit name .error rule
        [LogVal.str ("❌ error in " ++ m ++ ":"), LogVal.val err] e1.2
      (CallOutcome.rejected err, e1.1 ++ e2.1, e2.2)

/-- What the `get` trap hands back for a function-valued property:
the original function unwrapped, or the instrumented replacement. -/
inductive Accessed
  | original
  | instrumented
  deriving DecidableEq, Repr

/-- The `get` trap of `withDebugProxy` for a function-valued property:
`if (opts.optOut?.(methodName)) return orig;` — the opt-out predicate is
applied once, at access time, and decides whether the original function
or the instrumented replacement is returned. -/
def proxyGet (opts : ProxyOpts V ω) (m : String) (so : ω) : Accessed × ω :=
  match opts.optOut with
  | some f =>
      let r := f m so
      (if r.1 then Accessed.original else Accessed.instrumented, r.2)
  | none => (Accessed.instrumented, so)

/-- Invoking what the `get` trap returned: the original function runs
uninstrumented (no console lines), the instrumented replacement runs
`wrappedCall`.  Neither consults the opt-out predicate, so the opt-out
state `so` passes through unchanged. -/
def invokeAccessed (acc : Accessed) (opts : ProxyOpts V ω) (name m : String)
    (method : List V → CallOutcome V) (rule : EnableRule σ)
    (args : List V) (s : σ) (so : ω) :
    CallOutcome V × List (OutputLine (LogVal V)) × σ × ω :=
  match acc with
  | Accessed.original => (method args, [], s, so)
  | Accessed.instrumented =>
      let r := wrappedCall opts name m method rule args s
      (r.1, r.2.1, r.2.2, so)

/-- One invocation of a method decorated with `DebugLog(ns?)` whose own
name is `key`, following src/decorators.ts: a single logger with
namespace `ns ?? key` logs the entry arguments and the result at debug
level, and on synchronous throw or rejection logs `"❌ error:"` with the
error at error level before re-raising it. -/
def decoratedCall (dns : Option String) (key : String)
    (method : List V → CallOutcome V) (rule : EnableRule σ)
    (args : List V) (s : σ) :
    CallOutcome V × List (OutputLine (LogVal V)) × σ :=
  let ns := dns.getD key
  let e1 := emit ns .debug rule [LogVal.str "▶ args:", LogVal.arr args] s
  match method args with
  | CallOutcome.value out =>
      let e2 := emit ns .debug rule [LogVal.str "✅ result:", LogVal.val out] e1.2
      (CallOutcome.value out, e1.1 ++ e2.1, e2.2)
  | CallOutcome.thrown err =>
      let e2 := emit ns .error rule [LogVal.str "❌ error:", LogVal.val err] e1.2
      (CallOutcome.thrown err, e1.1 ++ e2.1, e2.2)
  | CallOutcome.resolved res =>
      let e2 := emit ns .debug rule [LogVal.str "✅ result:", LogVal.val res] e1.2
      (CallOutcome.resolved res, e1.1 ++ e2.1, e2.2)
  | CallOutcome.rejected err =>
      let e2 := emit ns .error rule [LogVal.str "❌ error:", LogVal.val err] e1.2
      (CallOutcome.rejected err, e1.1 ++ e2.1, e2.2)

/-- The error-channel lines of a console trace. -/
def errorLines (ls : List (OutputLine A)) : List (OutputLine A) :=
  ls.filter (fun l => l.channel == Channel.error)

/-- The general-channel lines of a console trace (`console.log`, the
channel that carries debug-level entry and success messages). -/
def generalLines (ls : List (OutputLine A)) : List (OutputLine A) :=
  ls.filter (fun l => l.channel == Channel.log)

/-- Whether `n` occurs at the start of `h` (character lists). -/
def hasPfx : List Char → List Char → Bool
  | [], _ => true
  | _ :: _, [] => false
  | a :: as, b :: bs => a == b && hasPfx as bs

/-- Whether `n` occurs anywhere inside `h` (character lists). -/
def occursIn (n : List Char) : List Char → Bool
  | [] => hasPfx n []
  | c :: t => hasPfx n (c :: t) || occursIn n t

/-- Whether the string `n` occurs anywhere inside the string `h`. -/
def strOccurs (n h : String) : Bool := occursIn n.data h.data

/-- Whether a console line mentions the method name `m`: in its namespace
tag or in one of its string arguments. -/
def lineMentions (m : String) (l : OutputLine (LogVal V)) : Bool :=
  strOccurs m l.tag ||
    l.values.any (fun x =>
      match x with
      | LogVal.str t => strOccurs m t
      | _ => false)

/-! ### Helper lemmas -/

@[simp] theorem beq_info_debug : (LogLevel.info == LogLevel.debug) = false := rfl

@[simp] theorem beq_warn_debug : (LogLevel.warn == LogLevel.debug) = false := rfl

@[simp] theorem beq_error_debug : (LogLevel.error == LogLevel.debug) = false := rfl

@[simp] theorem beq_debug_debug : (LogLevel.debug == LogLevel.debug) = true := rfl

@[simp] theorem beq_chan_log_error : (Channel.log == Channel.error) = false := rfl

@[simp] theorem beq_chan_error_error : (Channel.error == Channel.error) = true := rfl

@[simp] theorem beq_chan_log_log : (Channel.log == Channel.log) = true := rfl

@[simp] theorem beq_chan_error_log : (Channel.error == Channel.log) = false := rfl

theorem emit_debug_eq (ns : String) (rule : EnableRule σ) (a : List A) (s : σ) :
    emit ns .debug rule a s =
      ((if (rule s).1 then [⟨Channel.log, "[" ++ ns ++ "]", a⟩] else []),
        (rule s).2) := by
  cases h : (rule s).1 <;> simp [emit, h, chanFor]

theorem emit_info_eq (ns : String) (rule : EnableRule σ) (a : List A) (s : σ) :
    emit ns .info rule a s =
      ([⟨Channel.info, "[" ++ ns ++ "]", a⟩], (rule s).2) := by
  simp [emit, chanFor]

theorem emit_warn_eq (ns : String) (rule : EnableRule σ) (a : List A) (s : σ) :
    emit ns .warn rule a s =
      ([⟨Channel.warn, "[" ++ ns ++ "]", a⟩], (rule s).2) := by
  simp [emit, chanFor]

theorem emit_error_eq (ns : String) (rule : EnableRule σ) (a : List A) (s : σ) :
    emit ns .error rule a s =
      ([⟨Channel.error, "[" ++ ns ++ "]", a⟩], (rule s).2) := by
  simp [emit, chanFor]

theorem errorLines_emit_debug (ns : String) (rule : EnableRule σ) (a : List A)
    (s : σ) : errorLines (emit ns .debug rule a s).1 = [] := by
  cases h : (rule s).1 <;> simp [emit_debug_eq, h, errorLines]

theorem errorLines_emit_error (ns : String) (rule : EnableRule σ) (a : List A)
    (s : σ) :
    errorLines (emit ns .error rule a s).1 =
      [⟨Channel.error, "[" ++ ns ++ "]", a⟩] := by
  simp [emit_error_eq, errorLines]

theorem errorLines_append (xs ys : List (OutputLine A)) :
    errorLines (xs ++ ys) = errorLines xs ++ errorLines ys := by
  simp [errorLines, List.filter_append]

theorem generalLines_append (xs ys : List (OutputLine A)) :
    generalLines (xs ++ ys) = generalLines xs ++ generalLines ys := by
  simp [generalLines, List.filter_append]

theorem generalLines_emit_debug (ns : String) (rule : EnableRule σ)
    (a : List A) (s : σ) :
    generalLines (emit ns .debug rule a s).1 = (emit ns .debug rule a s).1 := by
  cases h : (rule s).1 <;> simp [emit_debug_eq, h, generalLines]

theorem generalLines_emit_error (ns : String) (rule : EnableRule σ)
    (a : List A) (s : σ) :
    generalLines (emit ns .error rule a s).1 = [] := by
  simp [emit_error_eq, generalLines]

theorem hasPfx_self_append (n q : List Char) : hasPfx n (n ++ q) = true := by
  induction n with
  | nil => rfl
  | cons a as ih => simp [hasPfx, ih]

theorem occursIn_self_append (n q : List Char) : occursIn n (n ++ q) = true := by
  cases n with
  | nil =>
      cases q with
      | nil => rfl
      | cons c t => simp [occursIn, hasPfx]
  | cons c t =>
      show (hasPfx (c :: t) ((c :: t) ++ q) || occursIn (c :: t) (t ++ q)) = true
      rw [hasPfx_self_append, Bool.true_or]

theorem occursIn_append_middle (n p q : List Char) :
    occursIn n (p ++ n ++ q) = true := by
  induction p with
  | nil => simpa using occursIn_self_append n q
  | cons c t ih =>
      have hstep : occursIn n ((c :: t) ++ n ++ q) =
          (hasPfx n ((c :: t) ++ n ++ q) || occursIn n (t ++ n ++ q)) := rfl
      rw [hstep, ih, Bool.or_true]

theorem strOccurs_middle (p n q : String) :
    strOccurs n (p ++ n ++ q) = true := by
  have hdata : (p ++ n ++ q).data = p.data ++ n.data ++ q.data := by
    simp [String.data_append]
  show occursIn n.data (p ++ n ++ q).data = true
  rw [hdata]
  exact occursIn_append_middle n.data p.data q.data

/-! ### The claims -/

/-- Claim C1: the wrapper is transparent to the caller.  Whatever outcome
the original method produces — in particular a plain non-thenable value
`X`, or a thenable resolving with `X` — the instrumented function built
by `withDebugProxy` hands the caller the very same outcome, for every
options record, including one that supplies `redactResult`: redaction
changes only the logged copy, never the caller-visible value. -/
theorem withDebugProxy_outcome_transparent (opts : ProxyOpts V ω)
    (name m : String) (method : List V → CallOutcome V) (rule : EnableRule σ)
    (args : List V) (s : σ) :
    (wrappedCall opts name m method rule args s).1 = method args := by
  rcases h : method args with out | err | res | err <;> simp [wrappedCall, h]

/-- Claim C4: the debug emission of `makeLogger ns` produces exactly one
line (tagged `[ns]`, on the general log channel) when the rule installed
at the moment of the call answers true, and no output at all when it
answers false; in either case the logger's only other effect is the one
rule invocation itself. -/
theorem makeLogger_debug_gated_by_rule (ns : String) (rule : EnableRule σ)
    (a : List A) (s : σ) :
    (makeLogger ns : Logger A σ).debug rule a s =
      ((if (rule s).1 then [⟨Channel.log, "[" ++ ns ++ "]", a⟩] else []),
        (rule s).2) := by
  simp [makeLogger, emit_debug_eq]

/-- Claim C5: the info, warn and error emissions of `makeLogger ns`
always produce exactly one line — the bracketed tag `[ns]` followed by
the supplied values in order, on the channel matching the level —
whatever the enablement rule answers; and debug output, when not
suppressed, goes to the general log channel rather than a distinct debug
channel. -/
theorem makeLogger_levels_unconditional (ns : String) (rule : EnableRule σ)
    (a : List A) (s : σ) :
    ((makeLogger ns : Logger A σ).info rule a s).1 =
        [⟨Channel.info, "[" ++ ns ++ "]", a⟩] ∧
    ((makeLogger ns : Logger A σ).warn rule a s).1 =
        [⟨Channel.warn, "[" ++ ns ++ "]", a⟩] ∧
    ((makeLogger ns : Logger A σ).error rule a s).1 =
        [⟨Channel.error, "[" ++ ns ++ "]", a⟩] ∧
    ((makeLogger ns : Logger A σ).debug rule a s).1 =
      (if (rule s).1 then [⟨Channel.log, "[" ++ ns ++ "]", a⟩] else []) := by
  refine ⟨?_, ?_, ?_, ?_⟩ <;>
    simp [makeLogger, emit_info_eq, emit_warn_eq, emit_error_eq, emit_debug_eq]

/-- Claim C10: every emission of a `makeLogger` logger — debug, info,
warn and error alike — applies the currently installed enablement rule
exactly once: the rule-state after the emission is exactly one transition
of the rule from the state before it, even though the rule's answer only
matters for debug suppression.  A rule with side effects therefore
affects info/warn/error emissions too. -/
theorem makeLogger_rule_invoked_once_all_levels (ns : String)
    (rule : EnableRule σ) (a : List A) (s : σ) :
    ((makeLogger ns : Logger A σ).debug rule a s).2 = (rule s).2 ∧
    ((makeLogger ns : Logger A σ).info rule a s).2 = (rule s).2 ∧
    ((makeLogger ns : Logger A σ).warn rule a s).2 = (rule s).2 ∧
    ((makeLogger ns : Logger A σ).error rule a s).2 = (rule s).2 := by
  refine ⟨?_, ?_, ?_, ?_⟩ <;>
    simp [makeLogger, emit_info_eq, emit_warn_eq, emit_error_eq, emit_debug_eq]

/-- Claim C9: when the build-time flag is defined and false,
`makeDevLogger` returns a logger all four of whose operations are no-ops
(no output, no rule invocation, state untouched); when the flag is
undefined or true, every emission behaves identically to the
corresponding emission of `makeLogger`. -/
theorem makeDevLogger_flag_behavior (dev : Option Bool) (ns : String)
    (rule : EnableRule σ) (a : List A) (s : σ) :
    (makeDevLogger dev ns : Logger A σ).debug rule a s =
      (if dev = some false then ([], s)
       else (makeLogger ns : Logger A σ).debug rule a s) ∧
    (makeDevLogger dev ns : Logger A σ).info rule a s =
      (if dev = some false then ([], s)
       else (makeLogger ns : Logger A σ).info rule a s) ∧
    (makeDevLogger dev ns : Logger A σ).warn rule a s =
      (if dev = some false then ([], s)
       else (makeLogger ns : Logger A σ).warn rule a s) ∧
    (makeDevLogger dev ns : Logger A σ).error rule a s =
      (if dev = some false then ([], s)
       else (makeLogger ns : Logger A σ).error rule a s) := by
  rcases dev with _ | b
  · simp [makeDevLogger]
  · cases b <;> simp [makeDevLogger]

/-- Claim C6: the default enablement rule is active, in a non-browser
context, exactly when `NODE_ENV` is not the string `"production"` (an
unset variable counts as active); in a browser context, exactly when the
persisted `"debug"` value is present, non-empty and not the literal
string `"false"`, or the `NODE_ENV` check is active. -/
theorem defaultEnabled_matches_spec (e : Env) :
    defaultEnabled e = true ↔
      (if e.browser = true then
        (∃ ls, e.lsDebug = some ls ∧ ls ≠ "" ∧ ls ≠ "false") ∨
          e.nodeEnv ≠ some "production"
      else e.nodeEnv ≠ some "production") := by
  rcases e with ⟨b, nodeEnv, lsDebug⟩
  cases b
  · simp [defaultEnabled]
  · rcases lsDebug with _ | ls <;>
      simp [defaultEnabled, and_assoc]

/-- Claim C2: if the original method throws synchronously, the
instrumented function re-throws the identical error, and the console
trace holds exactly one error-level line, written through the base
logger keyed to `name` (tag `[name]`), naming the method and the
error. -/
theorem withDebugProxy_sync_throw_transparent (opts : ProxyOpts V ω)
    (name m : String) (method : List V → CallOutcome V) (rule : EnableRule σ)
    (args : List V) (s : σ) (E : V)
    (h : method args = CallOutcome.thrown E) :
    (wrappedCall opts name m method rule args s).1 = CallOutcome.thrown E ∧
    errorLines (wrappedCall opts name m method rule args s).2.1 =
      [⟨Channel.error, "[" ++ name ++ "]",
        [LogVal.str ("❌ error in " ++ m ++ ":"), LogVal.val E]⟩] := by
  constructor
  · simp [wrappedCall, h]
  · simp [wrappedCall, h, errorLines_append, errorLines_emit_debug,
      errorLines_emit_error]

/-- Witness for Claim C2's theorem at a concrete input: a method of a
service wrapped under `"Svc"` that throws `9`. -/
theorem withDebugProxy_sync_throw_instance :
    (wrappedCall (⟨none, none, none, none⟩ : ProxyOpts Nat Unit) "Svc" "m"
        (fun _ => CallOutcome.thrown 9) (fun n : Nat => (true, n + 1)) [1] 0).1
      = CallOutcome.thrown 9 ∧
    errorLines (wrappedCall (⟨none, none, none, none⟩ : ProxyOpts Nat Unit)
        "Svc" "m" (fun _ => CallOutcome.thrown 9)
        (fun n : Nat => (true, n + 1)) [1] 0).2.1 =
      [⟨Channel.error, "[" ++ "Svc" ++ "]",
        [LogVal.str ("❌ error in " ++ "m" ++ ":"), LogVal.val 9]⟩] :=
  withDebugProxy_sync_throw_transparent ⟨none, none, none, none⟩ "Svc" "m"
    (fun _ => CallOutcome.thrown 9) (fun n : Nat => (true, n + 1)) [1] 0 9 rfl

/-- Claim C3: if the original method returns a thenable that rejects, the
console trace holds exactly one error-level line, written through the
namespace-independent base logger keyed to `name` (tag `[name]`, not the
per-method namespace), whose message text contains the method name; and
the outcome handed to the caller is a rejection with the same error. -/
theorem withDebugProxy_rejection_logging (opts : ProxyOpts V ω)
    (name m : String) (method : List V → CallOutcome V) (rule : EnableRule σ)
    (args : List V) (s : σ) (E : V)
    (h : method args = CallOutcome.rejected E) :
    (wrappedCall opts name m method rule args s).1 = CallOutcome.rejected E ∧
    errorLines (wrappedCall opts name m method rule args s).2.1 =
      [⟨Channel.error, "[" ++ name ++ "]",
        [LogVal.str ("❌ error in " ++ m ++ ":"), LogVal.val E]⟩] ∧
    strOccurs m ("❌ error in " ++ m ++ ":") = true := by
  refine ⟨?_, ?_, strOccurs_middle "❌ error in " m ":"⟩
  · simp [wrappedCall, h]
  · simp [wrappedCall, h, errorLines_append, errorLines_emit_debug,
      errorLines_emit_error]

/-- Witness for Claim C3's theorem at a concrete input: a method
`fetchUser` of a service wrapped under `"Api"` that rejects with `7`. -/
theorem withDebugProxy_rejection_instance :
    (wrappedCall (⟨none, none, none, none⟩ : ProxyOpts Nat Unit) "Api"
        "fetchUser" (fun _ => CallOutcome.rejected 7)
        (fun n : Nat => (false, n + 1)) [4, 5] 0).1
      = CallOutcome.rejected 7 ∧
    errorLines (wrappedCall (⟨none, none, none, none⟩ : ProxyOpts Nat Unit)
        "Api" "fetchUser" (fun _ => CallOutcome.rejected 7)
        (fun n : Nat => (false, n + 1)) [4, 5] 0).2.1 =
      [⟨Channel.error, "[" ++ "Api" ++ "]",
        [LogVal.str ("❌ error in " ++ "fetchUser" ++ ":"), LogVal.val 7]⟩] ∧
    strOccurs "fetchUser" ("❌ error in " ++ "fetchUser" ++ ":") = true :=
  withDebugProxy_rejection_logging ⟨none, none, none, none⟩ "Api" "fetchUser"
    (fun _ => CallOutcome.rejected 7) (fun n : Nat => (false, n + 1)) [4, 5] 0 7
    rfl

/-- Claim C7: when the opt-out predicate answers true for a method name,
the `get` trap hands back the original function unwrapped — the predicate
having been applied exactly once, at access time — and invoking that
original produces the original outcome with zero console lines and no
further consultation of the predicate. -/
theorem withDebugProxy_optOut_access_time (opts : ProxyOpts V ω)
    (f : String → ω → Bool × ω) (m : String) (so so' : ω) (name : String)
    (method : List V → CallOutcome V) (rule : EnableRule σ) (args : List V)
    (s : σ) (hf : opts.optOut = some f) (h : f m so = (true, so')) :
    proxyGet opts m so = (Accessed.original, so') ∧
    invokeAccessed Accessed.original opts name m method rule args s so' =
      (method args, [], s, so') := by
  refine ⟨?_, rfl⟩
  simp [proxyGet, hf, h]

/-- Witness for Claim C7's theorem at a concrete input: an opt-out
predicate that counts its consultations and opts every method out. -/
theorem withDebugProxy_optOut_instance :
    proxyGet (⟨some (fun _ n => (true, n + 1)), none, none, none⟩ :
        ProxyOpts Nat Nat) "m" 0 = (Accessed.original, 1) ∧
    invokeAccessed Accessed.original
        (⟨some (fun _ n => (true, n + 1)), none, none, none⟩ : ProxyOpts Nat Nat)
        "Svc" "m" (fun _ => CallOutcome.value 2) (fun n : Nat => (true, n + 1))
        [3] 0 1 =
      (CallOutcome.value 2, [], 0, 1) :=
  withDebugProxy_optOut_access_time
    ⟨some (fun _ n => (true, n + 1)), none, none, none⟩ (fun _ n => (true, n + 1))
    "m" 0 1 "Svc" (fun _ => CallOutcome.value 2) (fun n : Nat => (true, n + 1))
    [3] 0 rfl rfl

/-- Counterexample to Claim C8 as stated: a method `foo` decorated with
`DebugLog("Custom")` that throws `5` emits exactly one error-level line,
but that line is `[Custom] ❌ error: 5` — neither its namespace tag nor
its message text mentions the method name `foo`, while the claim asserts
an error-level message naming the method (the wrapper's error line would
read `❌ error in foo:`). -/
theorem DebugLog_error_line_omits_method :
    errorLines (decoratedCall (some "Custom") "foo"
        (fun _ => CallOutcome.thrown (5 : Nat))
        (fun n : Nat => (true, n + 1)) [] 0).2.1 =
      [⟨Channel.error, "[Custom]", [LogVal.str "❌ error:", LogVal.val 5]⟩] ∧
    lineMentions "foo"
      (⟨Channel.error, "[Custom]", [LogVal.str "❌ error:", LogVal.val (5 : Nat)]⟩ :
        OutputLine (LogVal Nat)) = false := by
  decide

/-- Claim C8 amended: the decorated method logs entry, success and
failure like the wrapper with the transformations absent, except that a
single logger with namespace `ns ?? methodName` carries every message,
failures included, and the failure message text is `"❌ error:"` followed
by the error without the method name (the method is identified only by
the default namespace tag when no explicit namespace is supplied); on
synchronous throw or rejection the identical error is re-raised after
exactly one error-level line.  Formally, for every outcome of the
original method: the decorator hands the caller the identical outcome;
its general-channel trace — the debug-level entry and success lines —
equals that of `wrappedCall` with no opt-out and no redaction and the
per-method namespace pinned to `ns ?? methodName` (wrapper steps 5-8
with transformations absent, under the decorator's single namespace);
the enablement rule is invoked the same number of times as by the
wrapper; and the error-channel trace is empty on success and is exactly
one line `[ns ?? methodName] ❌ error: E` on throw or rejection. -/
theorem DebugLog_matches_wrapper_modulo_error_text (dns : Option String)
    (key name : String) (method : List V → CallOutcome V) (rule : EnableRule σ)
    (args : List V) (s : σ) :
    (decoratedCall dns key method rule args s).1 = method args ∧
    generalLines (decoratedCall dns key method rule args s).2.1 =
      generalLines (wrappedCall
        (⟨none, none, none, some (fun _ => some (dns.getD key))⟩ :
          ProxyOpts V Unit) name key method rule args s).2.1 ∧
    (decoratedCall dns key method rule args s).2.2 =
      (wrappedCall
        (⟨none, none, none, some (fun _ => some (dns.getD key))⟩ :
          ProxyOpts V Unit) name key method rule args s).2.2 ∧
    errorLines (decoratedCall dns key method rule args s).2.1 =
      (match method args with
       | CallOutcome.thrown E =>
           [⟨Channel.error, "[" ++ dns.getD key ++ "]",
             [LogVal.str "❌ error:", LogVal.val E]⟩]
       | CallOutcome.rejected E =>
           [⟨Channel.error, "[" ++ dns.getD key ++ "]",
             [LogVal.str "❌ error:", LogVal.val E]⟩]
       | CallOutcome.value _ => []
       | CallOutcome.resolved _ => []) := by
  refine ⟨?_, ?_, ?_, ?_⟩
  · rcases h : method args with out | err | res | err <;> simp [decoratedCall, h]
  · rcases h : method args with out | err | res | err <;>
      simp [decoratedCall, wrappedCall, h, generalLines_append,
        generalLines_emit_debug, generalLines_emit_error]
  · rcases h : method args with out | err | res | err <;>
      simp [decoratedCall, wrappedCall, h, emit_debug_eq, emit_error_eq]
  · rcases h : method args with out | err | res | err <;>
      simp [decoratedCall, h, errorLines_append, errorLines_emit_debug,
        errorLines_emit_error]

end ReactLogger
